import Mathlib

/-!
Verification of the go-trapcheck metric-submission client.

This file gives a shallow embedding, in Lean 4, of the core logic of the
go-trapcheck repository (broker-list cache, broker selection, TLS trust
pinning, and the metric-submission pipeline), and proves or refutes the
frozen specification claims about it.  Each definition is translated from
the corresponding Go source; Go byte slices become `List Nat`, Go strings
become `String`, nullable pointers become `Option`, fallible functions
return `Except`, and the ambient wall clock / network are passed in as
explicit arguments.
-/

namespace Trapcheck

/-! ## Go string helpers -/

/-- Models Go `strings.EqualFold` (case-insensitive string equality; simple
case folding modelled by per-character lowercasing). -/
def goEqualFold (s t : String) : Bool :=
  s.data.map Char.toLower == t.data.map Char.toLower

/-- Does the second list start with the first (the pattern)? Helper for the
Go `strings.Contains` model. -/
def listLeads : List Char → List Char → Bool
  | [], _ => true
  | _ :: _, [] => false
  | a :: as, b :: bs => a == b && listLeads as bs

/-- Does the haystack (second argument) contain the pattern (first argument)
as a contiguous sublist? Helper for the Go `strings.Contains` model. -/
def listHasSub (p : List Char) : List Char → Bool
  | [] => p.isEmpty
  | c :: rest => listLeads p (c :: rest) || listHasSub p rest

/-- Models Go `strings.Contains s sub`: `sub` occurs as a substring of `s`. -/
def goContains (s sub : String) : Bool := listHasSub sub.data s.data

/-- Models Go `strings.Join xs sep`: concatenation with `sep` between
consecutive elements. -/
def goJoin (sep : String) : List String → String
  | [] => ""
  | [x] => x
  | x :: y :: rest => x ++ sep ++ goJoin sep (y :: rest)

/-- Models Go `strings.HasPrefix s pre`. -/
def goStartsWith (s pre : String) : Bool := listLeads pre.data s.data

/-- Models Go `strings.Split` for a one-character separator, on character
lists. -/
def splitChar (sep : Char) : List Char → List (List Char)
  | [] => [[]]
  | c :: rest =>
    if c == sep then [] :: splitChar sep rest
    else
      match splitChar sep rest with
      | [] => [[c]]
      | g :: gs => (c :: g) :: gs

/-- Decimal value of a non-empty all-digit character list; `none`
otherwise. -/
def decDigits (l : List Char) : Option Nat :=
  if l.isEmpty then none
  else if l.all Char.isDigit then
    some (l.foldl (fun acc c => acc * 10 + (c.toNat - 48)) 0)
  else none

/-- One dotted-quad field of an IPv4 literal, as accepted by Go
`net.ParseIP` (go1.17+: decimal, value ≤ 255, no leading zeros). -/
def ipv4FieldOK (f : List Char) : Bool :=
  match decDigits f with
  | none => false
  | some v => v ≤ 255 && (f == ['0'] || f.headD ' ' != '0')

/-- Models the IPv4 dotted-quad case of Go `net.ParseIP s != nil`.  (The Go
code only reaches this test with the host portion taken before the first
`:`, so an IPv6 literal never parses there; the claims exercise IPv4
literals only.) -/
def isIPv4Lit (s : String) : Bool :=
  let fields := splitChar '.' s.data
  fields.length == 4 && fields.all ipv4FieldOK

/-! ## Data model (from go-apiclient `Broker` / `BrokerDetail`) -/

/-- One broker instance (`apiclient.BrokerDetail`): certificate common name,
optional IP, optional external host, operational status and supported
check-type modules. -/
structure BrokerDetail where
  cn : String
  ip : Option String
  externalHost : Option String
  status : String
  modules : List String
deriving DecidableEq

/-- A broker (`apiclient.Broker`): CID identifier, display name, kind
(`circonus` or `enterprise`, Go field `Type`, here `btype`), tag list and
instance details. -/
structure Broker where
  cid : String
  name : String
  btype : String
  tags : List String
  details : List BrokerDetail
deriving DecidableEq

/-- Go constant `statusActive`. -/
def statusActive : String := "active"

/-- Go constant `enterpriseType`. -/
def enterpriseType : String := "enterprise"

/-- Go constant `circonusType`. -/
def circonusType : String := "circonus"

/-! ## C10: httptrap check-type validation in `New` / `NewFromCheckBundle`
(trapcheck.go) -/

/-- The part of `apiclient.CheckBundle` that `New`/`NewFromCheckBundle`
inspect: CID, check type, configured brokers and the submission URL from
the bundle config map. -/
structure CheckBundle where
  cid : String
  ctype : String
  brokers : List String
  submissionURL : Option String
deriving DecidableEq

/-- The part of the trapcheck `Config` that decides construction up to the
check-type validation: whether an API client was supplied, the optional
check config, the broker-max-response-time string and the custom
submission URL. -/
structure NewConfig where
  clientPresent : Bool
  checkConfig : Option CheckBundle
  brokerMaxResponseTime : String
  submissionURL : String
deriving DecidableEq

/-- Distinguishable failure points of `New` / `NewFromCheckBundle`. -/
inductive NewErr where
  | nilConfig
  | nilClient
  | nilBundle
  | badDuration (s : String)
  | badCheckType (t : String)
  | noSubmissionURL
  | restFailed (e : String)
deriving DecidableEq

/-- The condition under which the check-type validation in
`New`/`NewFromCheckBundle` accepts a type: Go rejects with
`check type must be httptrap variant` exactly when
`Type != "" && !strings.HasPrefix(Type, "httptrap")`. -/
def checkTypeAccepted (t : String) : Bool := t == "" || goStartsWith t "httptrap"

/-- The default broker-max-response-time duration string (Go
`defaultBrokerMaxResponseTime = "500ms"`). -/
def effectiveDur (s : String) : String := if s == "" then "500ms" else s

/-- Models `New` (trapcheck.go) up to and including the check-type
validation.  `parseDuration` stands for Go `time.ParseDuration`; `rest`
stands for the remaining stages (submission-URL resolution via
`initializeCheck`, broker-list init, TLS setup), which run only after the
validation passes. -/
def newTrapCheck (parseDuration : String → Option Nat) (rest : Except String Unit)
    (cfg : Option NewConfig) : Except NewErr Unit :=
  match cfg with
  | none => .error .nilConfig
  | some c =>
    if !c.clientPresent then .error .nilClient
    else
      match parseDuration (effectiveDur c.brokerMaxResponseTime) with
      | none => .error (.badDuration (effectiveDur c.brokerMaxResponseTime))
      | some _ =>
        match c.checkConfig with
        | some cb =>
          if cb.ctype != "" && !goStartsWith cb.ctype "httptrap" then
            .error (.badCheckType cb.ctype)
          else
            match rest with
            | .error e => .error (.restFailed e)
            | .ok _ => .ok ()
        | none =>
          match rest with
          | .error e => .error (.restFailed e)
          | .ok _ => .ok ()

/-- Models `NewFromCheckBundle` (trapcheck.go) up to and including the
check-type validation on the supplied bundle and the submission-URL
lookup in the bundle config. -/
def newFromCheckBundle (parseDuration : String → Option Nat) (rest : Except String Unit)
    (cfg : Option NewConfig) (bundle : Option CheckBundle) : Except NewErr Unit :=
  match cfg with
  | none => .error .nilConfig
  | some c =>
    if !c.clientPresent then .error .nilClient
    else
      match bundle with
      | none => .error .nilBundle
      | some b =>
        match parseDuration (effectiveDur c.brokerMaxResponseTime) with
        | none => .error (.badDuration (effectiveDur c.brokerMaxResponseTime))
        | some _ =>
          if b.ctype != "" && !goStartsWith b.ctype "httptrap" then
            .error (.badCheckType b.ctype)
          else
            match b.submissionURL with
            | none => .error .noSubmissionURL
            | some _ =>
              match rest with
              | .error e => .error (.restFailed e)
              | .ok _ => .ok ()

/-! ## C1: broker CN list derivation (`getBrokerCNList`, broker.go) and the
pinned-TLS peer verification callback (`setBrokerTLSConfig`, tls.go) -/

/-- The CNs collected by the loop in `getBrokerCNList`: for each broker
instance in order, skip it unless its status is `active`; append its CN
when its IP equals the submission host, or else when its external host
equals the submission host. -/
def cnMatches (host : String) : List BrokerDetail → List String
  | [] => []
  | d :: rest =>
    (if d.status != statusActive then []
     else if d.ip == some host then [d.cn]
     else if d.externalHost == some host then [d.cn]
     else []) ++ cnMatches host rest

/-- The primary CN accumulated by `getBrokerCNList` (`if cn == "" { cn =
detail.CN }`): the first non-empty CN in the match list, `""` if none. -/
def firstCN : List String → String
  | [] => ""
  | c :: rest => if c == "" then firstCN rest else c

/-- The host portion of the submission URL's `Host` (everything before
the first `:`, per `strings.Split(u.Host, ":")[0]`). -/
def submissionHost (uHost : String) : String :=
  String.mk ((splitChar ':' uHost.data).headD [])

/-- Models `getBrokerCNList` (broker.go): take the submission URL's host
portion before the first `:`; if it is not an IP literal return the
hostname with an empty acceptable list; otherwise collect the CNs of the
active instances whose IP or external host equals the host, failing when
none match, and return the first (non-empty) CN together with the
comma-joined list. -/
def getBrokerCNList (uHost : String) (details : List BrokerDetail) :
    Except String (String × String) :=
  let host := submissionHost uHost
  if !isIPv4Lit host then .ok (host, "")
  else
    match cnMatches host details with
    | [] => .error ("unable to match URL host (" ++ uHost ++ ") to broker instance")
    | c :: cs => .ok (firstCN (c :: cs), goJoin "," (c :: cs))

/-- Outcome of the `VerifyConnection` callback installed by
`setBrokerTLSConfig`. -/
inductive VerifyResult where
  | nameMismatch (detail : String)
  | chainFailed (e : String)
  | accepted
deriving DecidableEq

/-- Models the `VerifyConnection` callback of `setBrokerTLSConfig`
(tls.go): reject with an `x509.CertificateInvalidError`/`NameMismatch`
unless `strings.Contains(cnList, commonName)`; otherwise verify the chain
against the pinned pool (the chain verification, a cryptographic
operation, is passed in as its outcome `chain`). -/
def verifyConnectionCN (cnList peerCN : String) (chain : Except String Unit) :
    VerifyResult :=
  if !goContains cnList peerCN then
    .nameMismatch ("cn: \x22" ++ peerCN ++ "\x22, acceptable: \x22" ++ cnList ++ "\x22")
  else
    match chain with
    | .error e => .chainFailed ("peer cert verify: " ++ e)
    | .ok _ => .accepted

/-! ## C2: CheckRetry behaviour on certificate name-mismatch (submit.go) -/

/-- The session state touched by `clearTLSConfig` (tls.go): the cached
broker reference and the cached/custom TLS configs (modelled as presence
flags). -/
structure SessionTLS where
  broker : Option Broker
  tlsConfigSet : Bool
  custTLSConfigSet : Bool
deriving DecidableEq

/-- Models `clearTLSConfig` (tls.go): sets `tc.broker`, `tc.tlsConfig` and
`tc.custTLSConfig` to nil. -/
def clearTLSConfig (_s : SessionTLS) : SessionTLS :=
  { broker := none, tlsConfigSet := false, custTLSConfigSet := false }

/-- Classified request failures reaching `CheckRetry`.  `certNameMismatch`
is the `x509.CertificateInvalidError` with reason `NameMismatch` raised by
the `VerifyConnection` callback; the others are the error classes that
go-retryablehttp's `ErrorPropagatedRetryPolicy` singles out as
non-retryable (too many redirects, invalid scheme, invalid header,
untrusted certificate). -/
inductive ReqErrorKind where
  | certNameMismatch (detail : String)
  | tooManyRedirects
  | badScheme
  | badHeader
  | certNotTrusted
  | otherTransport
deriving DecidableEq

/-- Modelled from the spec: the transport-error classification of the
standard retry policy (go-retryablehttp `ErrorPropagatedRetryPolicy`,
external dependency, not under src/).  It stops on redirect/scheme/header
errors and on errors it recognizes as certificate-verification failures;
a `CertificateInvalidError` with reason `NameMismatch` raised by a custom
`VerifyConnection` callback matches none of its patterns and is treated
as a recoverable transport error (retried). -/
def retryPolicyOnError : ReqErrorKind → Bool
  | .certNameMismatch _ => true
  | .tooManyRedirects => false
  | .badScheme => false
  | .badHeader => false
  | .certNotTrusted => false
  | .otherTransport => true

/-- Modelled from the spec: the response-status classification of the
standard retry policy (go-retryablehttp `baseRetryPolicy`): retry on 429,
on status 0, and on 5xx other than 501. -/
def statusRetryable (status : Nat) : Bool :=
  status == 429 || status == 0 || (500 ≤ status && status != 501)

/-- Models the `CheckRetry` closure of the current `submit` (submit.go):
it computes the retry decision via `ErrorPropagatedRetryPolicy`, logs, and
returns `(retry, nil)`.  It does not touch `tc.tlsConfig` or `tc.broker`
(the name-mismatch invalidation present in an older revision is commented
out), so the session state is returned unchanged. -/
def checkRetrySubmit (s : SessionTLS) (e : Option ReqErrorKind) (status : Nat) :
    Bool × SessionTLS :=
  match e with
  | some k => (retryPolicyOnError k, s)
  | none => (statusRetryable status, s)

/-! ## C3: 404 classification in `submit` and the refresh-and-retry-once
logic of `SendMetrics` (submit.go, trapcheck.go, check.go) -/

/-- Outcome of one `submit` call as seen by `SendMetrics`: a parsed
success, a refresh request (`refresh = true` with an error), or a
terminal error (`refresh = false`). -/
inductive SubmitOutcome where
  | success (status : Nat)
  | refreshRequested (msg : String)
  | fatal (msg : String)
deriving DecidableEq

/-- Models the response classification at the end of `submit`
(submit.go): HTTP 404 with no custom submission URL configured requests a
check refresh; any other non-200 status is a terminal error; a 200
response succeeds iff its JSON body parses (`parseOk`). -/
def classifySubmit (custSubmissionURL : String) (status : Nat) (parseOk : Bool) :
    SubmitOutcome :=
  if status == 404 && custSubmissionURL == "" then
    .refreshRequested ("404 Not Found - refreshing check")
  else if status != 200 then .fatal ("status " ++ toString status)
  else if !parseOk then .fatal "parsing response"
  else .success status

/-- The environment `refreshCheck` runs against: whether the session has a
check bundle, and the outcomes of the bundle re-fetch, the submission-URL
lookup in the fresh bundle, and the subsequent TLS re-setup. -/
structure RefreshEnv where
  bundlePresent : Bool
  fetchBundleOk : Bool
  newURLPresent : Bool
  tlsSetupOk : Bool
deriving DecidableEq

/-- Models `refreshCheck` (check.go): with a custom submission URL the
check cannot be refreshed (`(false, nil)`); otherwise re-fetch the check
bundle, adopt its submission URL, clear the cached TLS config and broker,
and re-establish TLS, failing if any step fails. -/
def refreshCheckM (custSubmissionURL : String) (env : RefreshEnv) :
    Except String Bool :=
  if custSubmissionURL != "" then .ok false
  else if !env.bundlePresent then .error "invalid state check bundle nil"
  else if !env.fetchBundleOk then .error "fetching check bundle"
  else if !env.newURLPresent then .error "no submission url found in check bundle config"
  else if !env.tlsSetupOk then .error "tls setup"
  else .ok true

/-- Trace of one `SendMetrics` call: how many times `submit` ran, how many
times `refreshCheck` ran, and the outcome handed back to the caller. -/
structure SendTrace where
  submitCalls : Nat
  refreshCalls : Nat
  result : Except String SubmitOutcome

/-- Models `SendMetrics` (trapcheck.go): run `submit`; when it requests a
refresh, run `refreshCheck` — propagating its error, or wrapping the
submit error as `unable to refresh` when the check cannot be refreshed —
and on a successful refresh run `submit` exactly once more, returning its
outcome (whose own refresh flag is discarded).  `s1, p1` and `s2, p2` are
the HTTP status and body-parse outcome of the first and second submit
attempt. -/
def sendMetricsM (custSubmissionURL : String) (s1 s2 : Nat) (p1 p2 : Bool)
    (env : RefreshEnv) : SendTrace :=
  match classifySubmit custSubmissionURL s1 p1 with
  | .refreshRequested e1 =>
    match refreshCheckM custSubmissionURL env with
    | .error re => ⟨1, 1, .error re⟩
    | .ok false => ⟨1, 1, .error ("unable to refresh: " ++ e1)⟩
    | .ok true => ⟨2, 1, .ok (classifySubmit custSubmissionURL s2 p2)⟩
  | .success st => ⟨1, 0, .ok (.success st)⟩
  | .fatal m => ⟨1, 0, .ok (.fatal m)⟩

/-! ## C4: broker-list TTL gating (internal/broker_list, part_000) -/

/-- Five minutes in nanoseconds (the `RefreshBrokers` TTL). -/
def fiveMinutesNs : Nat := 5 * 60 * 1000000000

/-- State of the singleton broker list (`brokerList` struct,
internal/broker_list): the `lastRefresh` timestamp (ns; Go's zero `Time`
modelled as `0`), the cached snapshot (nil until populated) and, for the
claims about network traffic, a count of `client.FetchBrokers` API calls
performed. -/
structure BLState where
  lastRefresh : Nat
  brokers : Option (List Broker)
  fetchCount : Nat
deriving DecidableEq

/-- Models `brokerList.FetchBrokers` (internal/broker_list): performs the
API fetch (`api` is its outcome), replaces the snapshot on success, and —
exactly as the source does — never writes `lastRefresh`. -/
def fetchBrokersBL (api : Except String (List Broker)) (s : BLState) :
    Except String BLState :=
  match api with
  | .error e => .error ("error fetching broker list: " ++ e)
  | .ok list => .ok { s with brokers := some list, fetchCount := s.fetchCount + 1 }

/-- Models `brokerList.RefreshBrokers` (internal/broker_list): fetch only
when more than five minutes have passed since `lastRefresh` (`now` is the
current wall-clock time in ns). -/
def refreshBrokersBL (now : Nat) (api : Except String (List Broker)) (s : BLState) :
    Except String BLState :=
  if fiveMinutesNs < now - s.lastRefresh then fetchBrokersBL api s else .ok s

/-! ## C5: automatic broker selection (`getBroker`, broker.go) -/

/-- Go map assignment `m[k] = v`: overwrite the entry for `k` if present,
otherwise add it.  (The map is modelled as an association list; the
nondeterministic Go map iteration order is accounted for by quantifying
the selection index over all positions.) -/
def mapInsert (m : List (String × Broker)) (k : String) (v : Broker) :
    List (String × Broker) :=
  if m.any (fun p => p.1 == k) then
    m.map (fun p => if p.1 == k then (k, v) else p)
  else m ++ [(k, v)]

/-- The `validBrokers` map built by the selection loop of `getBroker`:
each broker of the candidate list, in order, is inserted under its CID
when `isValidBroker` accepted it (`valid` is the outcome of that check,
which probes the network). -/
def buildValidMap (valid : Broker → Bool) :
    List Broker → List (String × Broker) → List (String × Broker)
  | [], m => m
  | b :: rest, m =>
    buildValidMap valid rest (if valid b then mapInsert m b.cid b else m)

/-- The `haveEnterprise` flag of `getBroker`: some candidate was accepted
by `isValidBroker` and has type `enterprise`. -/
def haveEnterprise (valid : Broker → Bool) (list : List Broker) : Bool :=
  list.any (fun b => valid b && b.btype == enterpriseType)

/-- The `validBrokers` map of `getBroker` after the enterprise pruning
pass: when any valid broker is of type `enterprise`, every non-enterprise
entry is deleted. -/
def validCandidates (valid : Broker → Bool) (list : List Broker) :
    List (String × Broker) :=
  let vm := buildValidMap valid list []
  if haveEnterprise valid list then
    vm.filter (fun p => p.2.btype == enterpriseType)
  else vm

/-- Models the automatic selection path of `getBroker` (broker.go): fail
on an empty candidate list; build the map of valid brokers keyed by CID
and prune it to enterprise entries when one exists; fail when no valid
broker remains; otherwise pick the entry at a cryptographically random
index (`i`, reduced modulo the key count; the nondeterministic Go map
iteration order is covered by quantifying over every `i`). -/
def getBrokerAuto (valid : Broker → Bool) (i : Nat) (list : List Broker) :
    Except String Broker :=
  if list.length == 0 then .error "zero brokers found"
  else
    match validCandidates valid list with
    | [] => .error ("found " ++ toString list.length ++ " broker(s), zero are valid")
    | p :: ps =>
      .ok (((p :: ps).get ⟨i % (p :: ps).length, Nat.mod_lt i (by simp)⟩)).2

/-! ## C6: payload compression and headers (`submit`, submit.go) -/

/-- Go constant `compressionThreshold = 1024`. -/
def compressionThreshold : Nat := 1024

/-- The request body produced by `submit` together with whether it was
gzip-compressed. -/
structure PreparedPayload where
  body : List Nat
  gzipEncoded : Bool
deriving DecidableEq

/-- Models the payload-preparation stage of `submit` (submit.go): an empty
payload is a hard error; a payload longer than the threshold is passed
through the gzip writer (`gz` is the encoder; `copyLen` is the byte count
reported by `io.Copy`, which must match the source length on pain of a
length-mismatch error); a small payload is copied to the buffer
uncompressed, with the same short-write check. -/
def preparePayload (gz : List Nat → List Nat) (copyLen : List Nat → Nat)
    (metrics : List Nat) : Except String PreparedPayload :=
  if metrics.length == 0 then .error "zero length data, no metrics to submit"
  else if compressionThreshold < metrics.length then
    if copyLen metrics != metrics.length then
      .error "gzwrite length mismatch data length"
    else .ok ⟨gz metrics, true⟩
  else
    if copyLen metrics != metrics.length then
      .error "write length mismatch data length"
    else .ok ⟨metrics, false⟩

/-- Models the request headers set by `submit` (submit.go): the fixed
header set, `Content-Length` from the prepared body length, and
`Content-Encoding: gzip` exactly when the payload was compressed. -/
def submitHeaders (dataLen : Nat) (gzipEncoded : Bool) : List (String × String) :=
  [("User-Agent", "circonus-trapcheck/v0.0.4"),
   ("Content-Type", "application/json"),
   ("Accept", "application/json"),
   ("Connection", "close"),
   ("Content-Length", toString dataLen)] ++
  (if gzipEncoded then [("Content-Encoding", "gzip")] else [])

/-! ## C7: tag search over the broker snapshot (`SearchBrokerList`,
internal/broker_list, part_000) -/

/-- The `numTagsFound` counter of `SearchBrokerList`: the number of broker
tags that case-insensitively equal at least one search tag (the inner
loop breaks after the first matching search tag, so each broker tag
counts at most once). -/
def tagMatchCount (searchTags tags : List String) : Nat :=
  (tags.filter (fun t => searchTags.any (fun st => goEqualFold t st))).length

/-- Models `SearchBrokerList` (internal/broker_list): fail on a nil or
empty snapshot; otherwise keep the brokers whose `numTagsFound` equals
the number of search tags. -/
def searchBrokerListM (searchTags : List String) (brokers : Option (List Broker)) :
    Except String (List Broker) :=
  match brokers with
  | none => .error "invalid state, broker list is nil"
  | some l =>
    if l.length == 0 then .error "invalid state, empty broker list"
    else .ok (l.filter (fun b => tagMatchCount searchTags b.tags == searchTags.length))

/-! ## C8: `GetBroker` and the non-reentrant mutex (internal/broker_list,
part_000) -/

/-- State of the broker-list singleton including its `sync.Mutex`
(modelled explicitly because `GetBroker` calls `FetchBrokers` while
holding it). -/
structure LockedBLState where
  locked : Bool
  brokers : Option (List Broker)
  fetchCount : Nat
deriving DecidableEq

/-- Result of running a broker-list operation: a value with the resulting
state, an error with the resulting state, or a deadlock (`Lock` on a
`sync.Mutex` already held by the calling goroutine blocks forever). -/
inductive BLRun (α : Type) where
  | ok (a : α) (s : LockedBLState)
  | err (e : String) (s : LockedBLState)
  | deadlock
deriving DecidableEq

/-- Models `brokerList.FetchBrokers` (internal/broker_list) with its
mutex: `bl.Lock()` (deadlock if already held), fetch, store the snapshot,
`defer bl.Unlock()`. -/
def fetchBrokersLocked (api : Except String (List Broker)) (s : LockedBLState) :
    BLRun Unit :=
  if s.locked then .deadlock
  else
    match api with
    | .error e => .err ("error fetching broker list: " ++ e)
        { s with locked := false, fetchCount := s.fetchCount + 1 }
    | .ok list => .ok ()
        { locked := false, brokers := some list, fetchCount := s.fetchCount + 1 }

/-- Models `brokerList.GetBroker` (internal/broker_list): reject an empty
CID; `bl.Lock()`; nil snapshot is an invalid-state error; an empty
snapshot triggers `bl.FetchBrokers()` — called while the mutex is still
held — before re-checking and scanning; otherwise linearly scan for the
first broker whose CID matches. -/
def getBrokerLocked (cid : String) (api : Except String (List Broker))
    (s : LockedBLState) : BLRun Broker :=
  if cid == "" then .err "invalid cid (empty)" s
  else if s.locked then .deadlock
  else
    let s1 : LockedBLState := { s with locked := true }
    match s1.brokers with
    | none => .err "invalid state, broker list is nil" { s1 with locked := false }
    | some l =>
      let scan (l' : List Broker) (s' : LockedBLState) : BLRun Broker :=
        match l'.find? (fun b => b.cid == cid) with
        | some b => .ok b { s' with locked := false }
        | none => .err ("no broker with CID (" ++ cid ++ ") found")
            { s' with locked := false }
      if l.length == 0 then
        match fetchBrokersLocked api s1 with
        | .deadlock => .deadlock
        | .err e s2 => .err ("invalid state, broker list len is 0, unable to fetch broker list: " ++ e) { s2 with locked := false }
        | .ok _ s2 =>
          match s2.brokers with
          | none => .err "invalid state, no brokers in list" { s2 with locked := false }
          | some l2 =>
            if l2.length == 0 then
              .err "invalid state, no brokers in list" { s2 with locked := false }
            else scan l2 { s2 with locked := true }
      else scan l s1

/-! ## C9: the send-with-retry loop configuration (`submit`, submit.go)
and the delegated retry policy (go-retryablehttp) -/

/-- `retryClient.RetryWaitMin = 50 * time.Millisecond`, in ns. -/
def retryWaitMin : Nat := 50000000

/-- `retryClient.RetryWaitMax = 2 * time.Second`, in ns. -/
def retryWaitMax : Nat := 2000000000

/-- `retryClient.RetryMax = 7`. -/
def retryMaxAttempts : Nat := 7

/-- An HTTP response as the retry policy sees it: status code and the
parsed integer seconds of a `Retry-After` header when one is present. -/
structure RespModel where
  status : Nat
  retryAfter : Option Nat
deriving DecidableEq

/-- Result of one HTTP attempt: a response, or a transport failure. -/
inductive AttemptResult where
  | resp (r : RespModel)
  | failed (k : ReqErrorKind)
deriving DecidableEq

/-- The retry decision of the `CheckRetry` closure in `submit` (which
returns whatever `ErrorPropagatedRetryPolicy` decides). -/
def shouldRetry : AttemptResult → Bool
  | .failed k => retryPolicyOnError k
  | .resp r => statusRetryable r.status

/-- Modelled from the spec: the default backoff of the standard
retry-with-backoff policy (go-retryablehttp `DefaultBackoff`, external
dependency, not under src/): on a 429 or 503 response carrying a
parseable `Retry-After` header, wait that many seconds; otherwise wait
`2^attempt * min`, capped at `max`. -/
def defaultBackoff (minW maxW attemptNum : Nat) (r : AttemptResult) : Nat :=
  match r with
  | .resp resp =>
    if (resp.status == 429 || resp.status == 503) then
      match resp.retryAfter with
      | some secs => secs * 1000000000
      | none => min (2 ^ attemptNum * minW) maxW
    else min (2 ^ attemptNum * minW) maxW
  | .failed _ => min (2 ^ attemptNum * minW) maxW

/-- Modelled from the spec: the attempt loop of the standard retry client
(go-retryablehttp `Client.Do`, external dependency, not under src/),
instrumented with the attempt count and the list of waits slept between
consecutive attempts.  Iteration `i` performs one HTTP attempt (`step i`),
stops when the retry policy says stop or when `retryMax - i` retries
remain no more, and otherwise sleeps the backoff wait and continues.  The
`fuel` argument only makes the recursion structural; `retryMax + 1` fuel
is never exhausted. -/
def doLoopGo (retryMax : Nat) (step : Nat → AttemptResult) :
    Nat → Nat → Nat × List Nat
  | 0, _ => (1, [])
  | fuel + 1, i =>
    if shouldRetry (step i) = false then (1, [])
    else if retryMax ≤ i then (1, [])
    else
      let w := defaultBackoff retryWaitMin retryWaitMax i (step i)
      let rest := doLoopGo retryMax step fuel (i + 1)
      (rest.1 + 1, w :: rest.2)

/-- The send-with-retry phase of one `submit` call, as configured in
submit.go (`RetryMax = 7`, waits between 50ms and 2s): returns the total
number of HTTP attempts made and the waits slept between them. -/
def submitRetryRun (step : Nat → AttemptResult) : Nat × List Nat :=
  doLoopGo retryMaxAttempts step (retryMaxAttempts + 1) 0

/-! ## Shared concrete fixtures -/

/-- A concrete non-enterprise broker used by several concrete scenarios. -/
def brokerEx : Broker := ⟨"/broker/1", "foo", circonusType, ["a"], []⟩

/-- The case-folded image of a string (the equivalence underlying
`strings.EqualFold`). -/
def foldStr (t : String) : List Char := t.data.map Char.toLower

/-- A concrete enterprise broker used by concrete scenarios. -/
def brokerEnt : Broker := ⟨"/broker/2", "ent", enterpriseType, [], []⟩

/-- The claim's concrete broker instances: CN `foo` on IP `10.1.2.3`, CN
`bar` on external host `10.1.2.3`, both active. -/
def detailsFooBar : List BrokerDetail :=
  [⟨"foo", some "10.1.2.3", none, "active", []⟩,
   ⟨"bar", none, some "10.1.2.3", "active", []⟩]

/-- Does a response override the exponential backoff via a parseable
`Retry-After` header (only honoured on 429 and 503)? -/
def hasRAOverride : AttemptResult → Bool
  | .resp r => (r.status == 429 || r.status == 503) && r.retryAfter.isSome
  | .failed _ => false

/-! ## C10 theorems -/

/-- C10: for every configuration that reaches the check-type validation
(client present, broker-max-response-time parses), a check config /
supplied bundle whose non-empty `Type` does not start with `httptrap`
makes `New` and `NewFromCheckBundle` fail with the check-type error (so no
instance is returned), while an empty or `httptrap`-prefixed `Type`
passes this validation (neither constructor can then fail with the
check-type error). -/
theorem C10_httptrap_type_validation
    (pd : String → Option Nat) (rest : Except String Unit)
    (c : NewConfig) (cb : CheckBundle) (d : Nat)
    (hclient : c.clientPresent = true)
    (hdur : pd (effectiveDur c.brokerMaxResponseTime) = some d)
    (hcc : c.checkConfig = some cb) :
    (checkTypeAccepted cb.ctype = false →
      newTrapCheck pd rest (some c) = .error (.badCheckType cb.ctype)
      ∧ newFromCheckBundle pd rest (some c) (some cb) = .error (.badCheckType cb.ctype))
    ∧ (checkTypeAccepted cb.ctype = true →
      (∀ t, newTrapCheck pd rest (some c) ≠ .error (.badCheckType t))
      ∧ (∀ t, newFromCheckBundle pd rest (some c) (some cb) ≠ .error (.badCheckType t))) := by
  have hrej : (cb.ctype != "" && !goStartsWith cb.ctype "httptrap")
      = !checkTypeAccepted cb.ctype := by
    unfold checkTypeAccepted
    cases h1 : cb.ctype == "" <;> cases h2 : goStartsWith cb.ctype "httptrap" <;>
      simp [bne, h1, h2]
  constructor
  · intro hbad
    constructor
    · simp only [newTrapCheck, hclient, hdur, hcc, Bool.not_true, Bool.false_eq_true,
        if_false, hrej, hbad]
      simp
    · simp only [newFromCheckBundle, hclient, hdur, Bool.not_true, Bool.false_eq_true,
        if_false, hrej, hbad]
      simp
  · intro hgood
    constructor
    · intro t
      simp only [newTrapCheck, hclient, hdur, hcc, Bool.not_true, Bool.false_eq_true,
        if_false, hrej, hgood, Bool.not_true]
      cases rest <;> simp
    · intro t
      simp only [newFromCheckBundle, hclient, hdur, Bool.not_true, Bool.false_eq_true,
        if_false, hrej, hgood, Bool.not_true]
      cases cb.submissionURL <;> cases rest <;> simp

/-- C10 witness: at a concrete configuration, the rejected type `json`
fails both constructors with the check-type error, and the accepted type
`httptrap:cua` cannot fail with it. -/
theorem C10_httptrap_type_validation_witness :
    (newTrapCheck (fun _ => some 500000000) (.ok ())
        (some ⟨true, some ⟨"", "json", [], none⟩, "", ""⟩)
      = .error (.badCheckType "json"))
    ∧ (newFromCheckBundle (fun _ => some 500000000) (.ok ())
        (some ⟨true, some ⟨"", "json", [], none⟩, "", ""⟩) (some ⟨"", "json", [], none⟩)
      = .error (.badCheckType "json"))
    ∧ (∀ t, newTrapCheck (fun _ => some 500000000) (.ok ())
        (some ⟨true, some ⟨"", "httptrap:cua", [], none⟩, "", ""⟩)
      ≠ .error (.badCheckType t)) := by
  refine ⟨?_, ?_, ?_⟩
  · exact ((C10_httptrap_type_validation (fun _ => some 500000000) (.ok ())
      ⟨true, some ⟨"", "json", [], none⟩, "", ""⟩ ⟨"", "json", [], none⟩ 500000000
      rfl rfl rfl).1 (by decide)).1
  · exact ((C10_httptrap_type_validation (fun _ => some 500000000) (.ok ())
      ⟨true, some ⟨"", "json", [], none⟩, "", ""⟩ ⟨"", "json", [], none⟩ 500000000
      rfl rfl rfl).1 (by decide)).2
  · exact ((C10_httptrap_type_validation (fun _ => some 500000000) (.ok ())
      ⟨true, some ⟨"", "httptrap:cua", [], none⟩, "", ""⟩ ⟨"", "httptrap:cua", [], none⟩
      500000000 rfl rfl rfl).2 (by decide)).1

/-! ## C4 theorems -/

/-- C4: evaluation of the code at the claim's failing input.  Starting
from the initial state (zero `lastRefresh`, nil snapshot), a successful
`FetchBrokers` at wall time 1700000000000000000 ns leaves `lastRefresh`
at the zero time — the source never writes it — so a `RefreshBrokers`
call one second later (well inside the 5-minute TTL since the last
successful fetch) sees an elapsed time beyond the TTL and performs a
second network fetch, contradicting both the no-fetch-within-TTL part and
the timestamp-update part of the claim. -/
theorem C4_ttl_gate_never_suppresses_fetch :
    fetchBrokersBL (.ok [brokerEx]) ⟨0, none, 0⟩ = .ok ⟨0, some [brokerEx], 1⟩
    ∧ refreshBrokersBL 1700000001000000000 (.ok [brokerEx]) ⟨0, some [brokerEx], 1⟩
        = .ok ⟨0, some [brokerEx], 2⟩ :=
  ⟨rfl, rfl⟩

/-! ## C2 theorems -/

/-- C2: evaluation of the code at the claim's failing input.  In the
current `submit`'s `CheckRetry` the name-mismatch invalidation is
commented out: on a certificate name-mismatch error the retry decision is
`true` (the loop keeps retrying against the same TLS config) and the
cached broker / TLS configuration are returned untouched — in particular
not cleared, as `clearTLSConfig` (still present in tls.go, but no longer
called from the retry path) would have done. -/
theorem C2_name_mismatch_keeps_retrying_uncleared :
    checkRetrySubmit ⟨some brokerEx, true, true⟩
        (some (.certNameMismatch "cn mismatch")) 0
      = (true, ⟨some brokerEx, true, true⟩)
    ∧ clearTLSConfig ⟨some brokerEx, true, true⟩ ≠ ⟨some brokerEx, true, true⟩ :=
  ⟨rfl, by decide⟩

/-! ## C8 theorems -/

/-- C8: evaluation of the code at the claim's failing input, plus the
behaviour on the other snapshot shapes.  On a populated-but-empty
snapshot, `GetBroker` calls `FetchBrokers` while already holding the
non-reentrant `sync.Mutex`, so it deadlocks instead of performing the one
synchronous fetch the claim describes.  On a nil snapshot it fails with
the distinct invalid-state error, and on a populated snapshot it returns
the first CID match of a linear scan, or a not-found error. -/
theorem C8_get_broker_empty_snapshot_deadlocks :
    getBrokerLocked "/broker/1" (.ok [brokerEx]) ⟨false, some [], 0⟩ = .deadlock
    ∧ getBrokerLocked "/broker/1" (.ok [brokerEx]) ⟨false, none, 0⟩
        = .err "invalid state, broker list is nil" ⟨false, none, 0⟩
    ∧ getBrokerLocked "/broker/1" (.ok []) ⟨false, some [brokerEx], 3⟩
        = .ok brokerEx ⟨false, some [brokerEx], 3⟩
    ∧ getBrokerLocked "/broker/9" (.ok []) ⟨false, some [brokerEx], 3⟩
        = .err "no broker with CID (/broker/9) found" ⟨false, some [brokerEx], 3⟩ :=
  ⟨rfl, rfl, rfl, rfl⟩

/-! ## C7 theorems -/

theorem goEqualFold_iff {s t : String} : goEqualFold s t = true ↔ foldStr s = foldStr t := by
  simp [goEqualFold, foldStr]

/-- The `numTagsFound == len(searchTags)` test of `SearchBrokerList` is
exactly the tag-set-superset test whenever neither the broker's tags nor
the search tags contain case-fold duplicates. -/
theorem tagMatchCount_eq_iff (st tags : List String)
    (hs : (st.map foldStr).Nodup) (ht : (tags.map foldStr).Nodup) :
    tagMatchCount st tags = st.length ↔
      ∀ s ∈ st, ∃ t ∈ tags, goEqualFold t s = true := by
  classical
  set p : String → Bool := fun t => st.any (fun s => goEqualFold t s) with hp
  have hsubl : (tags.filter p).Sublist tags := List.filter_sublist tags
  have hT'nodup : ((tags.filter p).map foldStr).Nodup :=
    List.Nodup.sublist (List.Sublist.map foldStr hsubl) ht
  have hcount : tagMatchCount st tags = ((tags.filter p).map foldStr).length := by
    simp [tagMatchCount, hp]
  have hFcard : ((tags.filter p).map foldStr).toFinset.card = tagMatchCount st tags := by
    rw [List.toFinset_card_of_nodup hT'nodup, hcount]
  have hGcard : (st.map foldStr).toFinset.card = st.length := by
    rw [List.toFinset_card_of_nodup hs, List.length_map]
  have hFG : ((tags.filter p).map foldStr).toFinset ⊆ (st.map foldStr).toFinset := by
    intro x hx
    rw [List.mem_toFinset, List.mem_map] at hx
    obtain ⟨t, htmem, rfl⟩ := hx
    rw [List.mem_filter] at htmem
    obtain ⟨-, htp⟩ := htmem
    rw [hp, List.any_eq_true] at htp
    obtain ⟨s, hsmem, hfold⟩ := htp
    rw [List.mem_toFinset, List.mem_map]
    exact ⟨s, hsmem, (goEqualFold_iff.mp hfold).symm⟩
  constructor
  · intro hlen
    intro s hsmem
    have hcards : ((st.map foldStr).toFinset).card ≤
        ((tags.filter p).map foldStr).toFinset.card := by
      rw [hFcard, hGcard, hlen]
    have heq := Finset.eq_of_subset_of_card_le hFG hcards
    have hsIn : foldStr s ∈ ((tags.filter p).map foldStr).toFinset := by
      rw [heq, List.mem_toFinset, List.mem_map]
      exact ⟨s, hsmem, rfl⟩
    rw [List.mem_toFinset, List.mem_map] at hsIn
    obtain ⟨t, htmem, hfold⟩ := hsIn
    rw [List.mem_filter] at htmem
    exact ⟨t, htmem.1, goEqualFold_iff.mpr hfold⟩
  · intro hsup
    have hGF : (st.map foldStr).toFinset ⊆ ((tags.filter p).map foldStr).toFinset := by
      intro x hx
      rw [List.mem_toFinset, List.mem_map] at hx
      obtain ⟨s, hsmem, rfl⟩ := hx
      obtain ⟨t, htmem, hfold⟩ := hsup s hsmem
      rw [List.mem_toFinset, List.mem_map]
      refine ⟨t, ?_, goEqualFold_iff.mp hfold⟩
      rw [List.mem_filter]
      exact ⟨htmem, by rw [hp, List.any_eq_true]; exact ⟨s, hsmem, hfold⟩⟩
    have heq := Finset.Subset.antisymm hFG hGF
    have := hFcard
    rw [heq, hGcard] at this
    exact this.symm

/-- C7 counterexample: the claim fails as stated.  A broker with tags
`["a","a"]` against required tags `["a","b"]` is returned by
`SearchBrokerList` — both broker tags match `"a"`, so `numTagsFound`
equals the number of required tags — although its tag set is not a
superset of the required tags: no broker tag matches `"b"`. -/
theorem C7_search_superset_counterexample :
    searchBrokerListM ["a", "b"]
        (some [⟨"/broker/1", "n", circonusType, ["a", "a"], []⟩])
      = .ok [⟨"/broker/1", "n", circonusType, ["a", "a"], []⟩]
    ∧ (["a", "a"].any (fun t => goEqualFold t "b")) = false :=
  ⟨rfl, by decide⟩

/-- C7 amended: on a populated non-empty snapshot, `SearchBrokerList`
returns exactly the brokers for which the number of broker tags
case-insensitively matching some required tag equals the number of
required tags; when neither the broker's tags nor the required tags
contain case-fold duplicates this is exactly the brokers whose tag set is
a case-insensitive superset of the required tags (so precisely then a
broker missing any required tag is excluded). -/
theorem C7_search_superset_amended (searchTags : List String) (bl : List Broker)
    (hs : (searchTags.map foldStr).Nodup)
    (hb : ∀ b ∈ bl, ((b.tags.map foldStr)).Nodup)
    (hne : bl ≠ []) :
    ∃ res, searchBrokerListM searchTags (some bl) = .ok res ∧
      ∀ b, b ∈ res ↔
        (b ∈ bl ∧ ∀ st ∈ searchTags, ∃ t ∈ b.tags, goEqualFold t st = true) := by
  refine ⟨bl.filter (fun b => tagMatchCount searchTags b.tags == searchTags.length),
    ?_, ?_⟩
  · have : (bl.length == 0) = false := by
      cases bl with
      | nil => exact absurd rfl hne
      | cons x xs => rfl
    simp [searchBrokerListM, this]
  · intro b
    rw [List.mem_filter]
    constructor
    · rintro ⟨hmem, hcnt⟩
      rw [Nat.beq_eq_true_eq] at hcnt
      exact ⟨hmem, (tagMatchCount_eq_iff searchTags b.tags hs (hb b hmem)).mp hcnt⟩
    · rintro ⟨hmem, hsup⟩
      refine ⟨hmem, ?_⟩
      rw [Nat.beq_eq_true_eq]
      exact (tagMatchCount_eq_iff searchTags b.tags hs (hb b hmem)).mpr hsup

/-- C7 witness: at a concrete snapshot — one broker tagged `["B","A","x"]`
against required tags `["a","b"]`, no case-fold duplicates on either side
— the amended theorem instantiates and the broker (a case-insensitive
superset match) is returned. -/
theorem C7_search_superset_witness :
    ∃ res, searchBrokerListM ["a", "b"]
        (some [⟨"/broker/7", "w", circonusType, ["B", "A", "x"], []⟩]) = .ok res ∧
      ∀ b, b ∈ res ↔
        (b ∈ [⟨"/broker/7", "w", circonusType, ["B", "A", "x"], []⟩]
          ∧ ∀ st ∈ ["a", "b"], ∃ t ∈ b.tags, goEqualFold t st = true) :=
  C7_search_superset_amended ["a", "b"]
    [⟨"/broker/7", "w", circonusType, ["B", "A", "x"], []⟩]
    (by decide) (by decide) (by decide)

/-! ## C3 theorems -/

/-- C3: a 404 response with no custom submission URL is classified as a
refresh request; `SendMetrics` then runs `refreshCheck` exactly once and,
when the refresh succeeds, makes exactly one further submit attempt whose
classified outcome is returned to the caller.  A 404 with a custom
submission URL, and any other non-200 status, are terminal errors: one
submit attempt, no refresh. -/
theorem C3_404_refresh_once (cust : String) (s1 s2 : Nat) (p1 p2 : Bool)
    (env : RefreshEnv) :
    (cust = "" ∧ s1 = 404 →
      (∃ m, classifySubmit cust s1 p1 = .refreshRequested m)
      ∧ (sendMetricsM cust s1 s2 p1 p2 env).refreshCalls = 1
      ∧ (refreshCheckM cust env = .ok true →
          (sendMetricsM cust s1 s2 p1 p2 env).submitCalls = 2
          ∧ (sendMetricsM cust s1 s2 p1 p2 env).result
              = .ok (classifySubmit cust s2 p2)))
    ∧ (cust ≠ "" ∧ s1 = 404 →
      (∃ m, classifySubmit cust s1 p1 = .fatal m)
      ∧ (sendMetricsM cust s1 s2 p1 p2 env).submitCalls = 1
      ∧ (sendMetricsM cust s1 s2 p1 p2 env).refreshCalls = 0
      ∧ (∃ m, (sendMetricsM cust s1 s2 p1 p2 env).result = .ok (.fatal m)))
    ∧ (s1 ≠ 404 ∧ s1 ≠ 200 →
      (∃ m, classifySubmit cust s1 p1 = .fatal m)
      ∧ (sendMetricsM cust s1 s2 p1 p2 env).submitCalls = 1
      ∧ (sendMetricsM cust s1 s2 p1 p2 env).refreshCalls = 0
      ∧ (∃ m, (sendMetricsM cust s1 s2 p1 p2 env).result = .ok (.fatal m))) := by
  refine ⟨?_, ?_, ?_⟩
  · rintro ⟨rfl, rfl⟩
    have hcls : classifySubmit "" 404 p1
        = .refreshRequested "404 Not Found - refreshing check" := rfl
    refine ⟨⟨_, hcls⟩, ?_, ?_⟩
    · unfold sendMetricsM
      rw [hcls]
      rcases h : refreshCheckM "" env with e | b
      · rfl
      · cases b <;> rfl
    · intro hok
      unfold sendMetricsM
      rw [hcls, hok]
      exact ⟨rfl, rfl⟩
  · rintro ⟨hcust, rfl⟩
    have hc : (cust == "") = false := by
      rcases h : cust == "" with _ | _
      · rfl
      · exact absurd (by simpa using h) hcust
    have hcls : classifySubmit cust 404 p1 = .fatal ("status " ++ toString 404) := by
      unfold classifySubmit
      rw [hc]
      rfl
    refine ⟨⟨_, hcls⟩, ?_⟩
    unfold sendMetricsM
    rw [hcls]
    exact ⟨rfl, rfl, _, rfl⟩
  · rintro ⟨h404, h200⟩
    have hb4 : (s1 == 404) = false := by
      rcases h : s1 == 404 with _ | _
      · rfl
      · exact absurd (by simpa using h) h404
    have hb2 : (s1 != 200) = true := by
      rcases h : s1 == 200 with _ | _
      · simp [bne, h]
      · exact absurd (by simpa using h) h200
    have hcls : classifySubmit cust s1 p1 = .fatal ("status " ++ toString s1) := by
      unfold classifySubmit
      rw [hb4, hb2]
      rfl
    refine ⟨⟨_, hcls⟩, ?_⟩
    unfold sendMetricsM
    rw [hcls]
    exact ⟨rfl, rfl, _, rfl⟩

/-- C3 witness: concrete runs.  With no custom URL, a 404 then a
successful refresh leads to exactly one more attempt whose 200 outcome is
returned; with custom URL `"http://agent"`, a 404 makes one attempt and
no refresh; a 500 makes one attempt and no refresh. -/
theorem C3_404_refresh_once_witness :
    (sendMetricsM "" 404 200 true true ⟨true, true, true, true⟩).submitCalls = 2
    ∧ (sendMetricsM "" 404 200 true true ⟨true, true, true, true⟩).refreshCalls = 1
    ∧ (sendMetricsM "" 404 200 true true ⟨true, true, true, true⟩).result
        = .ok (classifySubmit "" 200 true)
    ∧ (sendMetricsM "http://agent" 404 200 true true ⟨true, true, true, true⟩).submitCalls = 1
    ∧ (sendMetricsM "http://agent" 404 200 true true ⟨true, true, true, true⟩).refreshCalls = 0
    ∧ (sendMetricsM "" 500 200 true true ⟨true, true, true, true⟩).refreshCalls = 0 := by
  refine ⟨?_, ?_, ?_, ?_, ?_, ?_⟩
  · exact (((C3_404_refresh_once "" 404 200 true true
      ⟨true, true, true, true⟩).1 ⟨rfl, rfl⟩).2.2 rfl).1
  · exact ((C3_404_refresh_once "" 404 200 true true
      ⟨true, true, true, true⟩).1 ⟨rfl, rfl⟩).2.1
  · exact (((C3_404_refresh_once "" 404 200 true true
      ⟨true, true, true, true⟩).1 ⟨rfl, rfl⟩).2.2 rfl).2
  · exact ((C3_404_refresh_once "http://agent" 404 200 true true
      ⟨true, true, true, true⟩).2.1 ⟨by decide, rfl⟩).2.1
  · exact ((C3_404_refresh_once "http://agent" 404 200 true true
      ⟨true, true, true, true⟩).2.1 ⟨by decide, rfl⟩).2.2.1
  · exact ((C3_404_refresh_once "" 500 200 true true
      ⟨true, true, true, true⟩).2.2 ⟨by decide, by decide⟩).2.2.1

/-! ## C6 theorems -/

/-- C6: for every non-empty payload, `submit` sends payloads of at most
1024 bytes uncompressed — the request body is exactly the original bytes
and no `Content-Encoding` header is set — and gzip-compresses payloads of
more than 1024 bytes, setting `Content-Encoding: gzip`, with the sent
body decompressing back to exactly the original bytes (for any gzip
encoder/decoder pair satisfying the round-trip law); and any short write
(`io.Copy` reporting a byte count different from the source length) is a
fatal local error. -/
theorem C6_compression_roundtrip
    (gz gunzip : List Nat → List Nat) (copyLen : List Nat → Nat)
    (metrics : List Nat)
    (hrt : ∀ b, gunzip (gz b) = b)
    (hcopy : copyLen metrics = metrics.length)
    (hne : metrics ≠ []) :
    (metrics.length ≤ compressionThreshold →
      preparePayload gz copyLen metrics = .ok ⟨metrics, false⟩
      ∧ ∀ v, ("Content-Encoding", v) ∉ submitHeaders metrics.length false)
    ∧ (compressionThreshold < metrics.length →
      preparePayload gz copyLen metrics = .ok ⟨gz metrics, true⟩
      ∧ gunzip (gz metrics) = metrics
      ∧ ("Content-Encoding", "gzip") ∈ submitHeaders (gz metrics).length true)
    ∧ (∀ (cl : List Nat → Nat) (m : List Nat), m ≠ [] → cl m ≠ m.length →
      ∃ e, preparePayload gz cl m = .error e) := by
  have hne0 : (metrics.length == 0) = false :=
    beq_eq_false_iff_ne.mpr (fun h => hne (List.length_eq_zero.mp h))
  refine ⟨?_, ?_, ?_⟩
  · intro hle
    constructor
    · simp [preparePayload, hne0, Nat.not_lt.mpr hle, hcopy]
    · intro v
      simp [submitHeaders]
  · intro hgt
    refine ⟨?_, hrt metrics, ?_⟩
    · simp [preparePayload, hne0, hgt, hcopy]
    · simp [submitHeaders]
  · intro cl m hm hshort
    have hm0 : (m.length == 0) = false :=
      beq_eq_false_iff_ne.mpr (fun h => hm (List.length_eq_zero.mp h))
    have hbne : (cl m != m.length) = true := by
      simp [bne, beq_eq_false_iff_ne.mpr hshort]
    unfold preparePayload
    rw [hm0]
    by_cases hc : compressionThreshold < m.length
    · rw [if_pos hc]
      refine ⟨"gzwrite length mismatch data length", ?_⟩
      rw [hbne]
      simp
    · rw [if_neg hc]
      refine ⟨"write length mismatch data length", ?_⟩
      rw [hbne]
      simp

/-- C6 witness: a 3-byte payload goes through uncompressed, a 1025-byte
payload goes through the compressor (witnessed with the identity codec,
which satisfies the round-trip law), and a short write on a 3-byte
payload is an error. -/
theorem C6_compression_roundtrip_witness :
    preparePayload id List.length [1, 2, 3] = .ok ⟨[1, 2, 3], false⟩
    ∧ preparePayload id List.length (List.replicate 1025 7)
        = .ok ⟨List.replicate 1025 7, true⟩
    ∧ (∃ e, preparePayload id (fun _ => 0) [1, 2, 3] = .error e) := by
  refine ⟨?_, ?_, ?_⟩
  · exact ((C6_compression_roundtrip id id List.length [1, 2, 3]
      (fun _ => rfl) rfl (by decide)).1 (by decide)).1
  · exact ((C6_compression_roundtrip id id List.length (List.replicate 1025 7)
      (fun _ => rfl) rfl
      (List.length_pos.mp (by rw [List.length_replicate]; omega))).2.1
      (by rw [List.length_replicate]; decide)).1
  · exact (C6_compression_roundtrip id id List.length [1, 2, 3]
      (fun _ => rfl) rfl (by decide)).2.2 (fun _ => 0) [1, 2, 3] (by decide) (by decide)

/-! ## C5 theorems -/

theorem mapInsert_mem {m : List (String × Broker)} {k : String} {v : Broker}
    {p : String × Broker} (hp : p ∈ mapInsert m k v) : p ∈ m ∨ p.2 = v := by
  unfold mapInsert at hp
  by_cases h : m.any (fun q => q.1 == k)
  · rw [if_pos h] at hp
    rw [List.mem_map] at hp
    obtain ⟨q, hq, hfq⟩ := hp
    by_cases hqk : (q.1 == k) = true
    · rw [if_pos hqk] at hfq
      right
      rw [← hfq]
    · rw [if_neg hqk] at hfq
      left
      rw [← hfq]
      exact hq
  · rw [if_neg h] at hp
    rcases List.mem_append.mp hp with h1 | h1
    · exact Or.inl h1
    · right
      rw [List.mem_singleton.mp h1]

theorem buildValidMap_mem (valid : Broker → Bool) :
    ∀ (l : List Broker) (m : List (String × Broker)) (p : String × Broker),
      p ∈ buildValidMap valid l m → p ∈ m ∨ (valid p.2 = true ∧ p.2 ∈ l) := by
  intro l
  induction l with
  | nil => intro m p hp; exact Or.inl hp
  | cons b rest ih =>
    intro m p hp
    unfold buildValidMap at hp
    rcases ih _ p hp with h1 | h1
    · by_cases hv : valid b = true
      · rw [if_pos hv] at h1
        rcases mapInsert_mem h1 with h2 | h2
        · exact Or.inl h2
        · right
          rw [h2]
          exact ⟨hv, List.mem_cons_self b rest⟩
      · rw [if_neg hv] at h1
        exact Or.inl h1
    · exact Or.inr ⟨h1.1, List.mem_cons_of_mem b h1.2⟩

theorem validCandidates_mem (valid : Broker → Bool) (list : List Broker)
    {p : String × Broker} (hp : p ∈ validCandidates valid list) :
    valid p.2 = true ∧ p.2 ∈ list := by
  unfold validCandidates at hp
  by_cases he : haveEnterprise valid list = true
  · rw [if_pos he] at hp
    rcases buildValidMap_mem valid list [] p (List.mem_of_mem_filter hp) with h | h
    · exact absurd h (List.not_mem_nil p)
    · exact h
  · rw [if_neg he] at hp
    rcases buildValidMap_mem valid list [] p hp with h | h
    · exact absurd h (List.not_mem_nil p)
    · exact h

theorem validCandidates_enterprise (valid : Broker → Bool) (list : List Broker)
    (he : haveEnterprise valid list = true) {p : String × Broker}
    (hp : p ∈ validCandidates valid list) : p.2.btype = enterpriseType := by
  unfold validCandidates at hp
  rw [if_pos he] at hp
  have := List.of_mem_filter hp
  simpa using this

theorem buildValidMap_no_valid (valid : Broker → Bool) :
    ∀ (l : List Broker) (m : List (String × Broker)),
      (∀ b ∈ l, valid b = false) → buildValidMap valid l m = m := by
  intro l
  induction l with
  | nil => intro m _; rfl
  | cons b rest ih =>
    intro m hnone
    unfold buildValidMap
    rw [if_neg (by rw [hnone b (List.mem_cons_self b rest)]; simp)]
    exact ih m (fun x hx => hnone x (List.mem_cons_of_mem b hx))

/-- C5: for every candidate list, validity verdict and random index in the
automatic selection path: a selected broker is always a valid member of
the candidate list; whenever some valid candidate is of kind enterprise,
the selected broker is of kind enterprise (never a non-enterprise one,
even if non-enterprise candidates are also valid); and when no valid
candidate exists, selection fails with an error rather than returning a
broker. -/
theorem C5_enterprise_broker_selection (valid : Broker → Bool) (i : Nat)
    (list : List Broker) :
    (∀ b, getBrokerAuto valid i list = .ok b → valid b = true ∧ b ∈ list)
    ∧ ((∃ e ∈ list, valid e = true ∧ e.btype = enterpriseType) →
        ∀ b, getBrokerAuto valid i list = .ok b → b.btype = enterpriseType)
    ∧ ((∀ b ∈ list, valid b = false) →
        ∃ msg, getBrokerAuto valid i list = .error msg) := by
  refine ⟨?_, ?_, ?_⟩
  · intro b hb
    unfold getBrokerAuto at hb
    split at hb
    · exact absurd hb (by simp)
    · split at hb
      · exact absurd hb (by simp)
      · rename_i p ps hvc
        rw [Except.ok.injEq] at hb
        obtain ⟨x, hxmem, hxb⟩ : ∃ x ∈ p :: ps, x.2 = b := ⟨_, List.get_mem _ _ _, hb⟩
        have hmem : x ∈ validCandidates valid list := by rw [hvc]; exact hxmem
        have := validCandidates_mem valid list hmem
        rw [hxb] at this
        exact this
  · rintro ⟨e, hemem, hev, hetype⟩ b hb
    have he : haveEnterprise valid list = true := by
      unfold haveEnterprise
      rw [List.any_eq_true]
      exact ⟨e, hemem, by rw [hev, hetype]; simp⟩
    unfold getBrokerAuto at hb
    split at hb
    · exact absurd hb (by simp)
    · split at hb
      · exact absurd hb (by simp)
      · rename_i p ps hvc
        rw [Except.ok.injEq] at hb
        obtain ⟨x, hxmem, hxb⟩ : ∃ x ∈ p :: ps, x.2 = b := ⟨_, List.get_mem _ _ _, hb⟩
        have hmem : x ∈ validCandidates valid list := by rw [hvc]; exact hxmem
        have := validCandidates_enterprise valid list he hmem
        rw [hxb] at this
        exact this
  · intro hnone
    unfold getBrokerAuto
    split
    · exact ⟨_, rfl⟩
    · have hvc : validCandidates valid list = [] := by
        unfold validCandidates
        rw [buildValidMap_no_valid valid list [] hnone]
        by_cases he : haveEnterprise valid list = true
        · rw [if_pos he]; rfl
        · rw [if_neg he]
      split
      · exact ⟨_, rfl⟩
      · rename_i p ps hcontra
        rw [hvc] at hcontra
        exact absurd hcontra (by simp)

/-- C5 witness: with candidates `[brokerEx (circonus), brokerEnt
(enterprise)]`, everything valid and index 0, the selection returns the
enterprise broker — a valid member — and with nothing valid it errors. -/
theorem C5_enterprise_broker_selection_witness :
    ((fun _ => true) brokerEnt = true ∧ brokerEnt ∈ [brokerEx, brokerEnt])
    ∧ brokerEnt.btype = enterpriseType
    ∧ (∃ msg, getBrokerAuto (fun _ => false) 0 [brokerEx, brokerEnt] = .error msg) := by
  refine ⟨?_, ?_, ?_⟩
  · exact (C5_enterprise_broker_selection (fun _ => true) 0 [brokerEx, brokerEnt]).1
      brokerEnt rfl
  · exact (C5_enterprise_broker_selection (fun _ => true) 0 [brokerEx, brokerEnt]).2.1
      ⟨brokerEnt, by decide, rfl, rfl⟩ brokerEnt rfl
  · exact (C5_enterprise_broker_selection (fun _ => false) 0 [brokerEx, brokerEnt]).2.2
      (by decide)

/-! ## C1 theorems -/

theorem listLeads_append (p r : List Char) : listLeads p (p ++ r) = true := by
  induction p with
  | nil => rfl
  | cons a as ih => simp [listLeads, ih]

theorem listHasSub_cons {p s : List Char} (h : listHasSub p s = true) (c : Char) :
    listHasSub p (c :: s) = true := by
  unfold listHasSub
  cases s with
  | nil =>
    unfold listHasSub at h
    simp only [Bool.or_eq_true]
    right
    exact h
  | cons d rest =>
    simp only [Bool.or_eq_true]
    right
    exact h

theorem listHasSub_append_left (p : List Char) :
    ∀ (pre s : List Char), listHasSub p s = true → listHasSub p (pre ++ s) = true := by
  intro pre
  induction pre with
  | nil => intro s h; simpa using h
  | cons c cs ih =>
    intro s h
    rw [List.cons_append]
    exact listHasSub_cons (ih s h) c

theorem listHasSub_self_append (p r : List Char) : listHasSub p (p ++ r) = true := by
  cases p with
  | nil =>
    cases r with
    | nil => rfl
    | cons c rest => rfl
  | cons a as =>
    unfold listHasSub
    simp only [List.cons_append, Bool.or_eq_true]
    left
    exact listLeads_append (a :: as) r

theorem string_data_append (s t : String) : (s ++ t).data = s.data ++ t.data := rfl

/-- Every CN in the list is a substring of the comma-joined list. -/
theorem goContains_goJoin {c : String} :
    ∀ {cns : List String}, c ∈ cns → goContains (goJoin "," cns) c = true := by
  intro cns
  induction cns with
  | nil => intro h; cases h
  | cons x rest ih =>
    intro h
    cases rest with
    | nil =>
      rw [List.mem_singleton.mp h]
      unfold goContains
      rw [goJoin]
      have := listHasSub_self_append x.data []
      rwa [List.append_nil] at this
    | cons y ys =>
      rcases List.mem_cons.mp h with rfl | hmem
      · unfold goContains
        rw [goJoin, string_data_append, string_data_append]
        rw [List.append_assoc]
        exact listHasSub_self_append c.data _
      · unfold goContains
        rw [goJoin, string_data_append, string_data_append]
        have := ih hmem
        unfold goContains at this
        exact listHasSub_append_left c.data _ _ this

/-- C1 counterexample: the claim's "if and only if" fails as stated.  For
the claim's own instances the derived primary CN is `foo` and the list is
`foo,bar`, but the verification callback also accepts the peer CN `oo`,
which is not one of the CNs in the list: acceptance is
`strings.Contains` (substring) on the comma-joined list, not membership. -/
theorem C1_trust_pinning_counterexample :
    getBrokerCNList "10.1.2.3" detailsFooBar = .ok ("foo", "foo,bar")
    ∧ verifyConnectionCN "foo,bar" "oo" (.ok ()) = .accepted
    ∧ "oo" ∉ ["foo", "bar"] :=
  ⟨rfl, rfl, by decide⟩

/-- C1 amended: for a submission URL host that is an IP literal with at
least one matching active instance, `getBrokerCNList` returns as primary
CN the first non-empty CN among the active instances whose IP or external
host equals the host, and as acceptable list the comma-joined CNs of all
such instances; the peer-verification callback accepts a peer certificate
iff its common name is a substring of that comma-joined list and the
chain verifies against the pinned pool (and rejects non-substrings with a
name-mismatch error) — in particular every listed CN is accepted, but
strictly more strings are too; for the claim's instances the primary CN
is `foo`, the list is `foo,bar`, peer CN `bar` is accepted and `baz` is
rejected with a name mismatch. -/
theorem C1_trust_pinning_amended (uHost : String) (details : List BrokerDetail)
    (cnL peer c : String) (cns : List String) (chain : Except String Unit)
    (hip : isIPv4Lit (submissionHost uHost) = true)
    (hne : cnMatches (submissionHost uHost) details ≠ []) :
    getBrokerCNList uHost details
      = .ok (firstCN (cnMatches (submissionHost uHost) details),
             goJoin "," (cnMatches (submissionHost uHost) details))
    ∧ (c ∈ cns → goContains (goJoin "," cns) c = true)
    ∧ (verifyConnectionCN cnL peer chain = .accepted ↔
        (goContains cnL peer = true ∧ chain = .ok ()))
    ∧ getBrokerCNList "10.1.2.3" detailsFooBar = .ok ("foo", "foo,bar")
    ∧ verifyConnectionCN "foo,bar" "bar" (.ok ()) = .accepted
    ∧ (∃ d, verifyConnectionCN "foo,bar" "baz" (.ok ()) = .nameMismatch d) := by
  refine ⟨?_, fun h => goContains_goJoin h, ?_, rfl, rfl, ⟨_, rfl⟩⟩
  · unfold getBrokerCNList
    dsimp only
    rw [hip]
    simp only [Bool.not_true, Bool.false_eq_true, if_false]
    cases hm : cnMatches (submissionHost uHost) details with
    | nil => exact absurd hm hne
    | cons c0 cs => rfl
  · unfold verifyConnectionCN
    by_cases hc : goContains cnL peer = true
    · rw [hc]
      cases chain with
      | error e => simp
      | ok u => simp
    · rw [Bool.not_eq_true] at hc
      rw [hc]
      simp [hc]

/-- C1 witness: the amended theorem instantiated at the claim's concrete
scenario (host `10.1.2.3`, instances `foo`/`bar`), showing the derived
pair, that the listed CN `bar` is accepted, and the acceptance
characterization for peer `bar` against list `foo,bar`. -/
theorem C1_trust_pinning_witness :
    getBrokerCNList "10.1.2.3" detailsFooBar
      = .ok (firstCN (cnMatches (submissionHost "10.1.2.3") detailsFooBar),
             goJoin "," (cnMatches (submissionHost "10.1.2.3") detailsFooBar))
    ∧ ("bar" ∈ ["foo", "bar"] → goContains (goJoin "," ["foo", "bar"]) "bar" = true)
    ∧ (verifyConnectionCN "foo,bar" "bar" (.ok ()) = .accepted ↔
        (goContains "foo,bar" "bar" = true ∧ (.ok () : Except String Unit) = .ok ())) :=
  ⟨(C1_trust_pinning_amended "10.1.2.3" detailsFooBar "foo,bar" "bar" "bar"
      ["foo", "bar"] (.ok ()) (by decide) (by decide)).1,
   (C1_trust_pinning_amended "10.1.2.3" detailsFooBar "foo,bar" "bar" "bar"
      ["foo", "bar"] (.ok ()) (by decide) (by decide)).2.1,
   (C1_trust_pinning_amended "10.1.2.3" detailsFooBar "foo,bar" "bar" "bar"
      ["foo", "bar"] (.ok ()) (by decide) (by decide)).2.2.1⟩

/-! ## C9 theorems -/

theorem doLoopGo_fst_le (retryMax : Nat) (step : Nat → AttemptResult) :
    ∀ (fuel i : Nat), (doLoopGo retryMax step fuel i).1 ≤ retryMax - i + 1 := by
  intro fuel
  induction fuel with
  | zero => intro i; simp [doLoopGo]
  | succ f ih =>
    intro i
    unfold doLoopGo
    by_cases h1 : shouldRetry (step i) = false
    · rw [if_pos h1]
      simp
    · rw [if_neg h1]
      by_cases h2 : retryMax ≤ i
      · rw [if_pos h2]
        simp
      · rw [if_neg h2]
        have hrec := ih (i + 1)
        dsimp only
        omega

theorem doLoopGo_waits (retryMax : Nat) (step : Nat → AttemptResult) :
    ∀ (fuel i : Nat), ∀ w ∈ (doLoopGo retryMax step fuel i).2,
      ∃ j, w = defaultBackoff retryWaitMin retryWaitMax j (step j) := by
  intro fuel
  induction fuel with
  | zero => intro i w hw; exact absurd hw (by simp [doLoopGo])
  | succ f ih =>
    intro i w hw
    unfold doLoopGo at hw
    by_cases h1 : shouldRetry (step i) = false
    · rw [if_pos h1] at hw
      exact absurd hw (by simp)
    · rw [if_neg h1] at hw
      by_cases h2 : retryMax ≤ i
      · rw [if_pos h2] at hw
        exact absurd hw (by simp)
      · rw [if_neg h2] at hw
        dsimp only at hw
        rcases List.mem_cons.mp hw with rfl | hw'
        · exact ⟨i, rfl⟩
        · exact ih (i + 1) w hw'

theorem defaultBackoff_bounds (j : Nat) (a : AttemptResult)
    (h : hasRAOverride a = false) :
    retryWaitMin ≤ defaultBackoff retryWaitMin retryWaitMax j a
    ∧ defaultBackoff retryWaitMin retryWaitMax j a ≤ retryWaitMax := by
  have hexp : retryWaitMin ≤ min (2 ^ j * retryWaitMin) retryWaitMax
      ∧ min (2 ^ j * retryWaitMin) retryWaitMax ≤ retryWaitMax := by
    constructor
    · refine le_min ?_ (by unfold retryWaitMin retryWaitMax; omega)
      have h2 : 1 ≤ 2 ^ j := Nat.one_le_two_pow
      calc retryWaitMin = 1 * retryWaitMin := (one_mul _).symm
        _ ≤ 2 ^ j * retryWaitMin := Nat.mul_le_mul_right _ h2
    · exact min_le_right _ _
  cases a with
  | failed k => exact hexp
  | resp r =>
    unfold hasRAOverride at h
    unfold defaultBackoff
    dsimp only at h ⊢
    by_cases hs : (r.status == 429 || r.status == 503) = true
    · rw [hs] at h
      rw [Bool.true_and] at h
      rw [if_pos hs]
      cases hra : r.retryAfter with
      | none => exact hexp
      | some secs => rw [hra] at h; simp at h
    · rw [if_neg hs]
      exact hexp

/-- C9 counterexample: the claim fails as stated.  With `RetryMax = 7`
(the repo's configuration) the delegated retry loop makes one initial
attempt plus up to 7 retries: on persistent 500 responses it performs 8
HTTP attempts, exceeding the claimed bound of 7; and on persistent 503
responses carrying `Retry-After: 100`, a wait of 100 s — far above the
claimed 2 s ceiling — is slept between attempts. -/
theorem C9_retry_counterexample :
    (submitRetryRun (fun _ => .resp ⟨500, none⟩)).1 = 8
    ∧ 7 < (submitRetryRun (fun _ => .resp ⟨500, none⟩)).1
    ∧ 100000000000 ∈ (submitRetryRun (fun _ => .resp ⟨503, some 100⟩)).2
    ∧ retryWaitMax < 100000000000 := by decide

/-- C9 amended: the send-with-retry phase makes at most 8 HTTP attempts
in total (one initial attempt plus up to `RetryMax = 7` retries); every
wait slept between consecutive attempts is the default backoff value for
some attempt index, and whenever no 429/503 response carries a parseable
`Retry-After` header every such wait lies between 50 ms and 2 s; a
parseable `Retry-After` of `secs` seconds on a 429/503 response overrides
the wait to exactly `secs` seconds. -/
theorem C9_retry_attempts_and_waits (step : Nat → AttemptResult) :
    (submitRetryRun step).1 ≤ retryMaxAttempts + 1
    ∧ (∀ w ∈ (submitRetryRun step).2,
        ∃ j, w = defaultBackoff retryWaitMin retryWaitMax j (step j))
    ∧ ((∀ j, hasRAOverride (step j) = false) →
        ∀ w ∈ (submitRetryRun step).2, retryWaitMin ≤ w ∧ w ≤ retryWaitMax)
    ∧ (∀ r : RespModel, (r.status == 429 || r.status == 503) = true →
        ∀ secs, r.retryAfter = some secs →
        ∀ j, defaultBackoff retryWaitMin retryWaitMax j (.resp r)
          = secs * 1000000000) := by
  refine ⟨?_, ?_, ?_, ?_⟩
  · have := doLoopGo_fst_le retryMaxAttempts step (retryMaxAttempts + 1) 0
    simpa [submitRetryRun] using this
  · intro w hw
    exact doLoopGo_waits retryMaxAttempts step (retryMaxAttempts + 1) 0 w hw
  · intro hnora w hw
    obtain ⟨j, rfl⟩ := doLoopGo_waits retryMaxAttempts step (retryMaxAttempts + 1) 0 w hw
    exact defaultBackoff_bounds j (step j) (hnora j)
  · intro r hs secs hra j
    unfold defaultBackoff
    dsimp only
    rw [if_pos hs, hra]

/-- C9 witness: the amended theorem instantiated at concrete attempt
streams: persistent 500 responses give at most 8 attempts with every wait
in the 50 ms – 2 s band, and a 503 response with `Retry-After: 100`
yields a 100 s wait. -/
theorem C9_retry_attempts_and_waits_witness :
    (submitRetryRun (fun _ => .resp ⟨500, none⟩)).1 ≤ retryMaxAttempts + 1
    ∧ (∀ w ∈ (submitRetryRun (fun _ => .resp ⟨500, none⟩)).2,
        retryWaitMin ≤ w ∧ w ≤ retryWaitMax)
    ∧ defaultBackoff retryWaitMin retryWaitMax 0 (.resp ⟨503, some 100⟩)
        = 100000000000 :=
  ⟨(C9_retry_attempts_and_waits (fun _ => .resp ⟨500, none⟩)).1,
   (C9_retry_attempts_and_waits (fun _ => .resp ⟨500, none⟩)).2.2.1 (fun _ => rfl),
   (C9_retry_attempts_and_waits (fun _ => .resp ⟨503, some 100⟩)).2.2.2
     ⟨503, some 100⟩ (by decide) 100 rfl 0⟩

end Trapcheck
